import Mathlib

/-!
Verification of the inventory & financial reconciliation engine of the
`djkassa` retail back office (FastAPI + SQLAlchemy backend).

The Python sources are embedded shallowly:

* `backend/app/services/inventory.py` — `adjust_stock`
* `backend/app/api/routes_movements.py` — `accept_movement`, `reject_movement`
* `backend/app/api/routes_debts.py` — `pay_off_debt`
* `backend/app/services/returns.py` — `calculate_return_breakdowns`
* `backend/app/api/routes_returns.py` — `_build_return_items`
* `backend/app/api/routes_sales.py` — `create_sale`

Monetary amounts and stock quantities are modelled as exact rationals `ℚ`
(the code computes with `decimal.Decimal` built from `str` of the stored
values, i.e. exact base-10 arithmetic; floats only enter as carriers of
those decimal values).  Database stores are modelled as functions into
`Option` (a row is present or absent) or as association lists, and each
route handler becomes a pure function returning `Except ApiError`, the
error corresponding to the `HTTPException` it raises; raising rolls the
transaction back, so an `.error` result carries no mutated state.
-/

/-- Errors raised by the embedded route handlers.  `notFound` is an HTTP 404,
`forbidden` an HTTP 403, and all others HTTP 400.  In the terms of the spec's
error taxonomy, `insufficientStock` and `alreadyProcessed` are the conflict
errors (stale stock / terminal state discovered on re-check), while
`validation` and `returnNotAvailable` are validation errors. -/
inductive ApiError
  | notFound
  | validation
  | forbidden
  | insufficientStock
  | alreadyProcessed
  | returnNotAvailable
  deriving DecidableEq

/-- The `stock` table: one optional row (its `quantity`) per
`(branch_id, product_id)` key, unique by the table's constraint. -/
def StockMap : Type := Nat → Nat → Option ℚ

/-- The on-hand quantity the code reads for a pair: the row's quantity, or 0
when the row is absent (`stock.quantity if stock else 0`, and
`Decimal(str(stock.quantity or 0))`). -/
def quantityAt (stock : StockMap) (b p : Nat) : ℚ :=
  (stock b p).getD 0

/-- `app/services/inventory.py::adjust_stock`.  Locates or lazily creates the
stock row for the pair (quantity 0), adds `delta`, and clamps a negative
result to 0 unless `allow_negative` is set.  Returns the resulting row
quantity together with the updated table. -/
def adjust_stock (stock : StockMap) (branch_id product_id : Nat) (delta : ℚ)
    (allow_negative : Bool := false) : ℚ × StockMap :=
  let current : ℚ := (stock branch_id product_id).getD 0
  let updated : ℚ := current + delta
  let final : ℚ := if allow_negative = false ∧ updated < 0 then 0 else updated
  (final, fun b p => if b = branch_id ∧ p = product_id then some final else stock b p)

theorem adjust_stock_fst (stock : StockMap) (b p : Nat) (d : ℚ) (neg : Bool) :
    (adjust_stock stock b p d neg).1 =
      if neg = false ∧ quantityAt stock b p + d < 0 then 0 else quantityAt stock b p + d := rfl

theorem quantityAt_adjust_self (stock : StockMap) (b p : Nat) (d : ℚ) (neg : Bool) :
    quantityAt (adjust_stock stock b p d neg).2 b p = (adjust_stock stock b p d neg).1 := by
  simp [quantityAt, adjust_stock]

theorem quantityAt_adjust_other (stock : StockMap) (b p b' p' : Nat) (d : ℚ) (neg : Bool)
    (h : ¬(b' = b ∧ p' = p)) :
    quantityAt (adjust_stock stock b p d neg).2 b' p' = quantityAt stock b' p' := by
  simp [quantityAt, adjust_stock, h]

theorem adjust_stock_fst_of_no_clamp (stock : StockMap) (b p : Nat) (d : ℚ) (neg : Bool)
    (h : 0 ≤ quantityAt stock b p + d) :
    (adjust_stock stock b p d neg).1 = quantityAt stock b p + d := by
  rw [adjust_stock_fst]
  split
  · next hc => exact absurd hc.2 (not_lt.mpr h)
  · rfl

/-- Delta-0 revalidation probes (`adjust_stock(db, b, p, 0)`) leave every
read quantity unchanged, provided the probed quantity is nonnegative
(otherwise the clamp zeroes a negative row even for delta 0). -/
theorem quantityAt_adjust_zero (stock : StockMap) (b p : Nat)
    (h : 0 ≤ quantityAt stock b p) (b' p' : Nat) :
    quantityAt (adjust_stock stock b p 0 false).2 b' p' = quantityAt stock b' p' := by
  by_cases hk : b' = b ∧ p' = p
  · obtain ⟨rfl, rfl⟩ := hk
    rw [quantityAt_adjust_self, adjust_stock_fst_of_no_clamp]
    · simp
    · simpa using h
  · exact quantityAt_adjust_other stock b p b' p' 0 false hk

/-- C6: with `allow_negative = false` the adjusted quantity is
`max (current + delta) 0`: the row is (lazily, for an absent pair) based at
quantity 0, the delta is added, and a negative result is clamped to 0 rather
than failing; consequently after any nonempty sequence of such adjustments
the stored quantity at the pair is nonnegative. -/
theorem C6_adjust_stock_nonneg (stock : StockMap) (b p : Nat) (d : ℚ) (ds : List ℚ)
    (h : ds ≠ []) :
    (adjust_stock stock b p d false).1 = max (quantityAt stock b p + d) 0 ∧
    (stock b p = none → ((adjust_stock stock b p d false).2) b p = some (max (0 + d) 0)) ∧
    0 ≤ quantityAt (ds.foldl (fun st d0 => (adjust_stock st b p d0 false).2) stock) b p := by
  have hstep : ∀ (st : StockMap) (d0 : ℚ),
      (adjust_stock st b p d0 false).1 = max (quantityAt st b p + d0) 0 := by
    intro st d0
    rw [adjust_stock_fst]
    rcases lt_or_le (quantityAt st b p + d0) 0 with hlt | hle
    · simp [hlt, max_eq_right hlt.le]
    · simp [not_lt.mpr hle, max_eq_left hle]
  refine ⟨hstep stock d, ?_, ?_⟩
  · intro hnone
    simp only [adjust_stock, quantityAt, hnone, Option.getD_none, zero_add]
    rcases lt_or_le d 0 with hlt | hle
    · simp [hlt, max_eq_right hlt.le]
    · simp [not_lt.mpr hle, max_eq_left hle]
  · have main : ∀ (ds0 : List ℚ) (st : StockMap), ds0 ≠ [] →
        0 ≤ quantityAt (ds0.foldl (fun s0 d0 => (adjust_stock s0 b p d0 false).2) st) b p := by
      intro ds0
      induction ds0 with
      | nil => intro st hst; exact absurd rfl hst
      | cons d0 tl ih =>
        intro st _
        rcases eq_or_ne tl [] with rfl | htl
        · simp only [List.foldl_cons, List.foldl_nil, quantityAt_adjust_self, hstep st d0]
          exact le_max_right (quantityAt st b p + d0) 0
        · simp only [List.foldl_cons]
          exact ih (adjust_stock st b p d0 false).2 htl
    exact main ds stock h

/-- Witness for C6: a fresh pair adjusted by −5 is lazily created, clamped to 0,
and stays nonnegative. -/
theorem C6_adjust_stock_nonneg_witness :
    ([(-5 : ℚ)] ≠ ([] : List ℚ)) ∧
    ((adjust_stock (fun _ _ => none) 1 2 (-5) false).1 =
        max (quantityAt (fun _ _ => none) 1 2 + (-5)) 0 ∧
      ((fun (_ _ : Nat) => (none : Option ℚ)) 1 2 = none →
        ((adjust_stock (fun _ _ => none) 1 2 (-5) false).2) 1 2 = some (max (0 + (-5 : ℚ)) 0)) ∧
      0 ≤ quantityAt
        (([(-5 : ℚ)]).foldl (fun st d0 => (adjust_stock st 1 2 d0 false).2) (fun _ _ => none)) 1 2) :=
  ⟨by simp, C6_adjust_stock_nonneg (fun _ _ => none) 1 2 (-5) [-5] (by simp)⟩

/-- `app/core/enums.py::MovementStatus` (stored as strings `waiting`, `done`,
`rejected` in the `movements.status` column). -/
inductive MovementStatus
  | waiting
  | done
  | rejected
  deriving DecidableEq

/-- A `movement_items` row: product and quantity (positive by the
`MovementItemCreate` schema, `Field(gt=0)`); price snapshots are carried but
never used by the state machine, so they are omitted. -/
structure MovementItem where
  product_id : Nat
  quantity : ℚ
  deriving DecidableEq

/-- A `movements` row (the fields the accept/reject handlers read or write). -/
structure Movement where
  from_branch_id : Nat
  to_branch_id : Nat
  status : MovementStatus
  items : List MovementItem
  processed_by_id : Option Nat
  processed_at : Option Nat
  reason : Option String
  deriving DecidableEq

/-- The fields of `app/models/user.py::User` consulted by the handlers. -/
structure AuthUser where
  id : Nat
  role : String
  branch_id : Option Nat
  deriving DecidableEq

/-- `routes_movements.py::_ensure_movement_access`: 404 for a missing
movement; admins pass; an employee must be attached to one of the two
branches. -/
def ensure_movement_access (movement : Option Movement) (u : AuthUser) :
    Except ApiError Movement :=
  match movement with
  | none => .error .notFound
  | some m =>
      if u.role = "admin" then .ok m
      else
        match u.branch_id with
        | none => .error .forbidden
        | some b =>
            if m.from_branch_id ≠ b ∧ m.to_branch_id ≠ b then .error .forbidden else .ok m

/-- The re-validation loop of `accept_movement`: probe the source row with a
delta-0 `adjust_stock` and fail on the first line whose quantity exceeds the
probed stock. -/
def validate_movement_items (stock : StockMap) (from_branch : Nat) :
    List MovementItem → Except ApiError StockMap
  | [] => .ok stock
  | it :: rest =>
      let r := adjust_stock stock from_branch it.product_id 0 false
      if r.1 < it.quantity then .error .insufficientStock
      else validate_movement_items r.2 from_branch rest

/-- The mutation loop of `accept_movement`: per line, debit the source and
credit the destination, both through `adjust_stock` with its default
`allow_negative=False`. -/
def apply_movement_items (stock : StockMap) (from_branch to_branch : Nat) :
    List MovementItem → StockMap
  | [] => stock
  | it :: rest =>
      let s1 := (adjust_stock stock from_branch it.product_id (-it.quantity) false).2
      let s2 := (adjust_stock s1 to_branch it.product_id it.quantity false).2
      apply_movement_items s2 from_branch to_branch rest

/-- `routes_movements.py::accept_movement`.  Access check, terminal-state
check, destination-branch authorization, then validate-all followed by
mutate-all; on success the movement becomes `done` with `processed_by`/`at`
stamped and `reason` cleared.  Any raised error rolls the transaction back,
so an `.error` result carries no state. -/
def accept_movement (stock : StockMap) (movement : Option Movement) (u : AuthUser)
    (now : Nat) : Except ApiError (StockMap × Movement) :=
  match ensure_movement_access movement u with
  | .error e => .error e
  | .ok m =>
      if m.status ≠ MovementStatus.waiting then .error .alreadyProcessed
      else if u.role ≠ "admin" ∧ (u.branch_id = none ∨ some m.to_branch_id ≠ u.branch_id) then
        .error .forbidden
      else
        match validate_movement_items stock m.from_branch_id m.items with
        | .error e => .error e
        | .ok st =>
            .ok (apply_movement_items st m.from_branch_id m.to_branch_id m.items,
              { m with status := .done, processed_by_id := some u.id,
                       processed_at := some now, reason := none })

/-- `routes_movements.py::reject_movement`: same access/terminal/authorization
checks, then only the status, stamps and reason are written; stock is never
touched. -/
def reject_movement (movement : Option Movement) (reason : Option String) (u : AuthUser)
    (now : Nat) : Except ApiError Movement :=
  match ensure_movement_access movement u with
  | .error e => .error e
  | .ok m =>
      if m.status ≠ MovementStatus.waiting then .error .alreadyProcessed
      else if u.role ≠ "admin" ∧ (u.branch_id = none ∨ some m.to_branch_id ≠ u.branch_id) then
        .error .forbidden
      else .ok { m with status := .rejected, processed_by_id := some u.id,
                        processed_at := some now, reason := reason }

theorem validate_movement_items_ok (fb : Nat) :
    ∀ (items : List MovementItem) (stock : StockMap),
      (∀ it ∈ items, 0 < it.quantity ∧ it.quantity ≤ quantityAt stock fb it.product_id) →
      ∃ st', validate_movement_items stock fb items = .ok st' ∧
        ∀ b p, quantityAt st' b p = quantityAt stock b p := by
  intro items
  induction items with
  | nil => intro stock _; exact ⟨stock, rfl, fun _ _ => rfl⟩
  | cons it rest ih =>
    intro stock hall
    obtain ⟨hpos, hava⟩ := hall it (by simp)
    have hq : 0 ≤ quantityAt stock fb it.product_id := le_of_lt (lt_of_lt_of_le hpos hava)
    have hfst : (adjust_stock stock fb it.product_id 0 false).1
        = quantityAt stock fb it.product_id := by
      rw [adjust_stock_fst_of_no_clamp] <;> simp [hq]
    have hpt := quantityAt_adjust_zero stock fb it.product_id hq
    have hrest : ∀ x ∈ rest, 0 < x.quantity ∧
        x.quantity ≤ quantityAt (adjust_stock stock fb it.product_id 0 false).2 fb x.product_id := by
      intro x hx
      refine ⟨(hall x (by simp [hx])).1, ?_⟩
      rw [hpt]
      exact (hall x (by simp [hx])).2
    obtain ⟨st', hval, hext⟩ := ih (adjust_stock stock fb it.product_id 0 false).2 hrest
    refine ⟨st', ?_, fun b p => by rw [hext, hpt]⟩
    simp only [validate_movement_items]
    rw [if_neg (by rw [hfst]; exact not_lt.mpr hava)]
    exact hval

theorem validate_movement_items_err (fb : Nat) :
    ∀ (items : List MovementItem) (stock : StockMap),
      (∀ it ∈ items, 0 < it.quantity) →
      (∃ it ∈ items, quantityAt stock fb it.product_id < it.quantity) →
      validate_movement_items stock fb items = .error .insufficientStock := by
  intro items
  induction items with
  | nil => intro stock _ hex; simp at hex
  | cons it rest ih =>
    intro stock hpos hex
    have hfst : (adjust_stock stock fb it.product_id 0 false).1
        = max (quantityAt stock fb it.product_id) 0 := by
      rw [adjust_stock_fst, add_zero]
      rcases lt_or_le (quantityAt stock fb it.product_id) 0 with hlt | hle
      · simp [hlt, max_eq_right hlt.le]
      · simp [not_lt.mpr hle, max_eq_left hle]
    by_cases hhead : quantityAt stock fb it.product_id < it.quantity
    · simp only [validate_movement_items]
      rw [if_pos]
      rw [hfst]
      exact max_lt hhead (hpos it (by simp))
    · push_neg at hhead
      have hq : 0 ≤ quantityAt stock fb it.product_id :=
        le_trans (le_of_lt (hpos it (by simp))) hhead
      have hpt := quantityAt_adjust_zero stock fb it.product_id hq
      obtain ⟨x, hx, hlt⟩ := hex
      rcases List.mem_cons.mp hx with rfl | hxr
      · exact absurd hlt (not_lt.mpr hhead)
      · simp only [validate_movement_items]
        rw [if_neg (by rw [hfst, max_eq_left hq]; exact not_lt.mpr hhead)]
        refine ih _ (fun y hy => hpos y (by simp [hy])) ⟨x, hxr, ?_⟩
        rw [hpt]
        exact hlt

theorem apply_movement_items_frame (fb tb : Nat) :
    ∀ (items : List MovementItem) (stock : StockMap) (b p : Nat),
      p ∉ items.map (·.product_id) →
      quantityAt (apply_movement_items stock fb tb items) b p = quantityAt stock b p := by
  intro items
  induction items with
  | nil => intro stock b p _; rfl
  | cons it rest ih =>
    intro stock b p hp
    simp only [List.map_cons, List.mem_cons, not_or] at hp
    simp only [apply_movement_items]
    rw [ih _ b p (by simpa using hp.2)]
    rw [quantityAt_adjust_other _ _ _ _ _ _ _ (fun hc => hp.1 hc.2)]
    rw [quantityAt_adjust_other _ _ _ _ _ _ _ (fun hc => hp.1 hc.2)]

theorem apply_movement_items_spec (fb tb : Nat) (hne : fb ≠ tb) :
    ∀ (items : List MovementItem) (stock : StockMap),
      (items.map (·.product_id)).Nodup →
      (∀ it ∈ items, 0 < it.quantity ∧ it.quantity ≤ quantityAt stock fb it.product_id ∧
        0 ≤ quantityAt stock tb it.product_id) →
      ∀ it ∈ items,
        quantityAt (apply_movement_items stock fb tb items) fb it.product_id =
          quantityAt stock fb it.product_id - it.quantity ∧
        quantityAt (apply_movement_items stock fb tb items) tb it.product_id =
          quantityAt stock tb it.product_id + it.quantity := by
  intro items
  induction items with
  | nil => intro stock _ _ it hit; simp at hit
  | cons it0 rest ih =>
    intro stock hnodup hall it hit
    obtain ⟨h0pos, h0ava, h0dst⟩ := hall it0 (by simp)
    simp only [List.map_cons, List.nodup_cons] at hnodup
    set s1 := (adjust_stock stock fb it0.product_id (-it0.quantity) false).2 with hs1
    set s2 := (adjust_stock s1 tb it0.product_id it0.quantity false).2 with hs2
    have hs1_src : quantityAt s1 fb it0.product_id =
        quantityAt stock fb it0.product_id - it0.quantity := by
      rw [hs1, quantityAt_adjust_self, adjust_stock_fst_of_no_clamp]
      · ring
      · linarith
    have hs1_other : ∀ b p, ¬(b = fb ∧ p = it0.product_id) →
        quantityAt s1 b p = quantityAt stock b p := fun b p h =>
      quantityAt_adjust_other _ _ _ _ _ _ _ h
    have hs2_dst : quantityAt s2 tb it0.product_id =
        quantityAt stock tb it0.product_id + it0.quantity := by
      rw [hs2, quantityAt_adjust_self, adjust_stock_fst_of_no_clamp]
      · rw [hs1_other tb it0.product_id (fun hc => hne hc.1.symm)]
      · rw [hs1_other tb it0.product_id (fun hc => hne hc.1.symm)]
        linarith
    have hs2_other : ∀ b p, ¬(b = tb ∧ p = it0.product_id) →
        quantityAt s2 b p = quantityAt s1 b p := fun b p h =>
      quantityAt_adjust_other _ _ _ _ _ _ _ h
    have hs2_src : quantityAt s2 fb it0.product_id = quantityAt s1 fb it0.product_id :=
      hs2_other fb it0.product_id (fun hc => hne hc.1)
    have hs2_rest : ∀ x ∈ rest, quantityAt s2 fb x.product_id = quantityAt stock fb x.product_id ∧
        quantityAt s2 tb x.product_id = quantityAt stock tb x.product_id := by
      intro x hx
      have hxp : x.product_id ≠ it0.product_id := by
        intro hcontra
        exact hnodup.1 (by simp [← hcontra, List.mem_map]; exact ⟨x, hx, rfl⟩)
      constructor
      · rw [hs2_other fb x.product_id (fun hc => hxp hc.2),
            hs1_other fb x.product_id (fun hc => hxp hc.2)]
      · rw [hs2_other tb x.product_id (fun hc => hxp hc.2),
            hs1_other tb x.product_id (fun hc => hxp hc.2)]
    simp only [apply_movement_items]
    rcases List.mem_cons.mp hit with rfl | hitr
    · have hframe_src := apply_movement_items_frame fb tb rest s2 fb it.product_id
        (by simpa using hnodup.1)
      have hframe_dst := apply_movement_items_frame fb tb rest s2 tb it.product_id
        (by simpa using hnodup.1)
      constructor
      · rw [hframe_src, hs2_src, hs1_src]
      · rw [hframe_dst, hs2_dst]
    · have hrest_hyp : ∀ x ∈ rest, 0 < x.quantity ∧
          x.quantity ≤ quantityAt s2 fb x.product_id ∧ 0 ≤ quantityAt s2 tb x.product_id := by
        intro x hx
        obtain ⟨hxpos, hxava, hxdst⟩ := hall x (by simp [hx])
        obtain ⟨he1, he2⟩ := hs2_rest x hx
        exact ⟨hxpos, by rw [he1]; exact hxava, by rw [he2]; exact hxdst⟩
      obtain ⟨hr1, hr2⟩ := ih s2 hnodup.2 hrest_hyp it hitr
      obtain ⟨he1, he2⟩ := hs2_rest it hitr
      exact ⟨by rw [hr1, he1], by rw [hr2, he2]⟩

/-- C1 (amended): for a Waiting movement accepted by an authorized user whose
line products are pairwise distinct, whose every line passes the stock
re-validation, and whose destination stocks are nonnegative, acceptance
debits the source and credits the destination by each line's quantity and
stamps the movement Done with `processed_by`/`processed_at`; and whenever
some line's quantity exceeds the current source stock, acceptance fails with
the insufficient-stock conflict error (no state is produced, i.e. the
transaction rolls back).  The distinct-product and nonnegative-destination
provisos are forced by the counterexample: both stock writes go through
`adjust_stock` with `allow_negative=False`, whose clamp can otherwise absorb
part of a debit or inflate a credit. -/
theorem C1_accept_movement_conservation (stock : StockMap) (m : Movement) (u : AuthUser)
    (now : Nat) (hstatus : m.status = MovementStatus.waiting) (hrole : u.role = "admin")
    (hne : m.from_branch_id ≠ m.to_branch_id)
    (hpos : ∀ it ∈ m.items, 0 < it.quantity) :
    ((m.items.map (·.product_id)).Nodup →
      (∀ it ∈ m.items, it.quantity ≤ quantityAt stock m.from_branch_id it.product_id) →
      (∀ it ∈ m.items, 0 ≤ quantityAt stock m.to_branch_id it.product_id) →
      ∃ st', accept_movement stock (some m) u now =
          .ok (st', { m with status := .done, processed_by_id := some u.id,
                             processed_at := some now, reason := none }) ∧
        ∀ it ∈ m.items,
          quantityAt st' m.from_branch_id it.product_id =
            quantityAt stock m.from_branch_id it.product_id - it.quantity ∧
          quantityAt st' m.to_branch_id it.product_id =
            quantityAt stock m.to_branch_id it.product_id + it.quantity) ∧
    ((∃ it ∈ m.items, quantityAt stock m.from_branch_id it.product_id < it.quantity) →
      accept_movement stock (some m) u now = .error .insufficientStock) := by
  have hensure : ensure_movement_access (some m) u = .ok m := by
    simp [ensure_movement_access, hrole]
  have hred : accept_movement stock (some m) u now =
      match validate_movement_items stock m.from_branch_id m.items with
      | .error e => .error e
      | .ok st =>
          .ok (apply_movement_items st m.from_branch_id m.to_branch_id m.items,
            { m with status := .done, processed_by_id := some u.id,
                     processed_at := some now, reason := none }) := by
    simp [accept_movement, hensure, hstatus, hrole]
  constructor
  · intro hnodup hava hdst
    obtain ⟨st', hval, hext⟩ := validate_movement_items_ok m.from_branch_id m.items stock
      (fun it hit => ⟨hpos it hit, hava it hit⟩)
    refine ⟨apply_movement_items st' m.from_branch_id m.to_branch_id m.items, ?_, ?_⟩
    · rw [hred, hval]
    · intro it hit
      have hspec := apply_movement_items_spec m.from_branch_id m.to_branch_id hne m.items st'
        hnodup
        (fun x hx => ⟨hpos x hx, by rw [hext]; exact hava x hx, by rw [hext]; exact hdst x hx⟩)
        it hit
      rw [hspec.1, hspec.2, hext, hext]
      exact ⟨rfl, rfl⟩
  · intro hex
    rw [hred, validate_movement_items_err m.from_branch_id m.items stock hpos hex]

/-- A Waiting movement of 2 units of product 7 from branch 1 to branch 2. -/
def mvWitness : Movement :=
  { from_branch_id := 1, to_branch_id := 2, status := .waiting,
    items := [{ product_id := 7, quantity := 2 }],
    processed_by_id := none, processed_at := none, reason := none }

/-- An administrator account (passes every access check of the handlers). -/
def adminUser : AuthUser := { id := 9, role := "admin", branch_id := none }

/-- Source branch 1 holds 10 units of product 7; branch 2 holds none. -/
def stockWitness : StockMap := fun b p => if b = 1 ∧ p = 7 then some 10 else none

/-- Source branch 1 holds 10 units of product 7; destination branch 2 is at
−5 (reachable: `routes_counterparty_sales.py` and `routes_income.py` call
`adjust_stock` with `allow_negative=True` and negative deltas). -/
def stockNegDest : StockMap := fun b p =>
  if b = 1 ∧ p = 7 then some 10 else if b = 2 ∧ p = 7 then some (-5) else none

/-- Extracts the stored quantity at a pair from a successful acceptance. -/
def okStockQuantity (r : Except ApiError (StockMap × Movement)) (b p : Nat) : Option ℚ :=
  match r with
  | .ok (st, _) => some (quantityAt st b p)
  | .error _ => none

/-- Counterexample to C1 as stated: accepting the transfer of 2 units of
product 7 into a destination whose stock is −5 yields destination quantity 0
(the credit runs through `adjust_stock` with `allow_negative=False`, which
clamps −5+2=−3 to 0), not the −3 that "credits the destination by the same
quantity" would require. -/
theorem C1_counterexample :
    okStockQuantity (accept_movement stockNegDest (some mvWitness) adminUser 0) 2 7 = some 0 ∧
    quantityAt stockNegDest 2 7 + 2 ≠ (0 : ℚ) := by
  constructor
  · norm_num [okStockQuantity, accept_movement, ensure_movement_access,
      validate_movement_items, apply_movement_items, adjust_stock, quantityAt,
      stockNegDest, mvWitness, adminUser]
  · norm_num [quantityAt, stockNegDest]

/-- Witness for C1 (amended): branch 1 holds 10 of product 7, branch 2 none;
the accepted transfer of 2 units moves them. -/
theorem C1_accept_movement_conservation_witness :
    (mvWitness.status = MovementStatus.waiting ∧ adminUser.role = "admin" ∧
      mvWitness.from_branch_id ≠ mvWitness.to_branch_id ∧
      ∀ it ∈ mvWitness.items, 0 < it.quantity) ∧
    (((mvWitness.items.map (·.product_id)).Nodup →
      (∀ it ∈ mvWitness.items,
        it.quantity ≤ quantityAt stockWitness mvWitness.from_branch_id it.product_id) →
      (∀ it ∈ mvWitness.items,
        0 ≤ quantityAt stockWitness mvWitness.to_branch_id it.product_id) →
      ∃ st', accept_movement stockWitness (some mvWitness) adminUser 0 =
          .ok (st', { mvWitness with status := .done, processed_by_id := some adminUser.id,
                                     processed_at := some 0, reason := none }) ∧
        ∀ it ∈ mvWitness.items,
          quantityAt st' mvWitness.from_branch_id it.product_id =
            quantityAt stockWitness mvWitness.from_branch_id it.product_id - it.quantity ∧
          quantityAt st' mvWitness.to_branch_id it.product_id =
            quantityAt stockWitness mvWitness.to_branch_id it.product_id + it.quantity) ∧
    ((∃ it ∈ mvWitness.items,
        quantityAt stockWitness mvWitness.from_branch_id it.product_id < it.quantity) →
      accept_movement stockWitness (some mvWitness) adminUser 0 =
        .error .insufficientStock)) :=
  ⟨⟨rfl, rfl, by norm_num [mvWitness], by norm_num [mvWitness]⟩,
   C1_accept_movement_conservation stockWitness mvWitness adminUser 0 rfl rfl
     (by norm_num [mvWitness]) (by norm_num [mvWitness])⟩

/-- C7: accepting or rejecting a movement that is already in a terminal state
(`done` or `rejected`) fails with the already-processed conflict error — the
status guard precedes every stock access, so no stock mutation and no status
change occur (the handler raises before touching anything, and the
transaction rolls back). -/
theorem C7_terminal_movement_conflict (stock : StockMap) (m : Movement) (u : AuthUser)
    (now : Nat) (r : Option String)
    (hterm : m.status = MovementStatus.done ∨ m.status = MovementStatus.rejected)
    (hacc : ensure_movement_access (some m) u = .ok m) :
    accept_movement stock (some m) u now = .error .alreadyProcessed ∧
    reject_movement (some m) r u now = .error .alreadyProcessed := by
  have hnw : m.status ≠ MovementStatus.waiting := by
    rcases hterm with h | h <;> simp [h]
  constructor
  · simp [accept_movement, hacc, hnw]
  · simp [reject_movement, hacc, hnw]

/-- The movement of `mvWitness` after it has been accepted. -/
def mvDone : Movement := { mvWitness with status := .done }

/-- Witness for C7: a second accept and a reject of an already-done movement
both fail with the conflict error. -/
theorem C7_terminal_movement_conflict_witness :
    ((mvDone.status = MovementStatus.done ∨ mvDone.status = MovementStatus.rejected) ∧
      ensure_movement_access (some mvDone) adminUser = .ok mvDone) ∧
    (accept_movement stockWitness (some mvDone) adminUser 0 = .error .alreadyProcessed ∧
      reject_movement (some mvDone) none adminUser 0 = .error .alreadyProcessed) :=
  ⟨⟨Or.inl rfl, by simp [ensure_movement_access, adminUser]⟩,
   C7_terminal_movement_conflict stockWitness mvDone adminUser 0 none (Or.inl rfl)
     (by simp [ensure_movement_access, adminUser])⟩

/-- Rounding of `decimal.Decimal` in its default context: round half to even
("banker's rounding"). -/
def roundHalfEven (x : ℚ) : ℤ :=
  let f := ⌊x⌋
  let r := x - f
  if r < 1 / 2 then f
  else if 1 / 2 < r then f + 1
  else if f % 2 = 0 then f else f + 1

/-- `Decimal(str(v)).quantize(Decimal("0.01"))`: round to two decimal
places, half to even. -/
def quantize2 (x : ℚ) : ℚ := (roundHalfEven (100 * x) : ℚ) / 100

theorem roundHalfEven_intCast (n : ℤ) : roundHalfEven (n : ℚ) = n := by
  simp [roundHalfEven]

theorem quantize2_natCast (n : ℕ) : quantize2 (n : ℚ) = n := by
  have h : (100 : ℚ) * n = ((100 * n : ℤ) : ℚ) := by push_cast; ring
  rw [quantize2, h, roundHalfEven_intCast]
  push_cast
  ring

/-- A `debts` row: original credit `amount`, cumulative `paid`, owner client,
creation timestamp (the `order_by(Debt.created_at)` key). -/
structure Debt where
  id : Nat
  client_id : Nat
  amount : ℚ
  paid : ℚ
  created_at : Nat
  deriving DecidableEq

/-- The `debt_payments` row created by `pay_off_debt` / the return offset. -/
structure DebtPaymentRec where
  client_id : Nat
  debt_id : Option Nat
  amount : ℚ
  payment_type : String
  processed_by_id : Nat
  branch_id : Option Nat
  deriving DecidableEq

/-- The debt-ledger slice of the database: `clients.total_debt` per client id
and the `debts` table. -/
structure DebtState where
  clients : Nat → Option ℚ
  debts : List Debt

/-- The `/debts/pay` request body (`schemas/debts.py::DebtPaymentCreate`). -/
structure DebtPaymentCreate where
  client_id : Nat
  amount : ℚ
  payment_type : String
  branch_id : Option Nat
  debt_id : Option Nat

/-- Python truthiness on an optional integer id (`if payload.debt_id:`,
`payload.branch_id or ...`): id 0 counts as absent. -/
def optTruthy (o : Option Nat) : Option Nat :=
  match o with
  | some n => if n = 0 then none else some n
  | none => none

/-- The allocation loop shared by `pay_off_debt` and the return offset:
walk the selected debts in order; skip a row with nothing outstanding;
otherwise add `min(remaining, outstanding)` to its `paid` and stop once the
remaining amount is exhausted.  Returns the selected rows after the walk
together with the unallocated remainder. -/
def walk_debts : ℚ → List Debt → List Debt × ℚ
  | r, [] => ([], r)
  | r, d :: ds =>
      let debt_remaining := d.amount - d.paid
      if debt_remaining ≤ 0 then
        let res := walk_debts r ds
        (d :: res.1, res.2)
      else
        let portion := min r debt_remaining
        let d' := { d with paid := d.paid + portion }
        let r' := r - portion
        if r' ≤ 0 then (d' :: ds, r')
        else
          let res := walk_debts r' ds
          (d' :: res.1, res.2)

/-- The untargeted selection of `pay_off_debt`:
`select(Debt).where(client_id == c, amount > paid).order_by(created_at)`. -/
def select_debts (debts : List Debt) (cid : Nat) : List Debt :=
  (debts.filter (fun d => decide (d.client_id = cid) && decide (d.paid < d.amount))).mergeSort
    (fun a b => decide (a.created_at ≤ b.created_at))

/-- Writing the walked rows back into the table (the ORM mutates the selected
rows in place; rows not selected are untouched). -/
def replace_debts (debts updated : List Debt) : List Debt :=
  debts.map (fun d => (updated.find? (fun x => x.id == d.id)).getD d)

/-- `routes_debts.py::pay_off_debt`.  404 on unknown client or foreign/missing
target debt; 400 on a non-positive amount; employee branch checks; then the
applied amount is `min(quantize2 amount, quantize2 total_debt)` when the
client's quantized debt is positive and the raw quantized amount otherwise;
the walk runs over the single targeted debt or the FIFO list of open debts;
`total_debt` becomes `max(current − applied, 0)`; the recorded payment carries
the applied amount. -/
def pay_off_debt (st : DebtState) (payload : DebtPaymentCreate) (u : AuthUser) :
    Except ApiError (DebtState × DebtPaymentRec) :=
  match st.clients payload.client_id with
  | none => .error .notFound
  | some total_debt =>
      if payload.amount ≤ 0 then .error .validation
      else if u.role ≠ "admin" ∧ u.branch_id = none then .error .forbidden
      else if u.role ≠ "admin" ∧ (optTruthy payload.branch_id).isSome = true ∧
          optTruthy payload.branch_id ≠ u.branch_id then .error .forbidden
      else
        let branch_id := match optTruthy payload.branch_id with
          | some b => some b
          | none => u.branch_id
        let amount_decimal := quantize2 payload.amount
        let current_debt := quantize2 total_debt
        let applied_amount :=
          if 0 < current_debt then min amount_decimal current_debt else amount_decimal
        let finish : List Debt → DebtState × DebtPaymentRec := fun updated =>
          ({ clients := fun c => if c = payload.client_id then
               some (max (current_debt - applied_amount) 0) else st.clients c,
             debts := replace_debts st.debts updated },
           { client_id := payload.client_id, debt_id := payload.debt_id,
             amount := applied_amount, payment_type := payload.payment_type,
             processed_by_id := u.id, branch_id := branch_id })
        match optTruthy payload.debt_id with
        | some did =>
            match st.debts.find? (fun d => d.id == did) with
            | none => .error .notFound
            | some targeted =>
                if targeted.client_id ≠ payload.client_id then .error .notFound
                else .ok (finish (walk_debts applied_amount [targeted]).1)
        | none => .ok (finish (walk_debts applied_amount
            (select_debts st.debts payload.client_id)).1)

/-- The spec's wording of the allocation: add `min(remaining, outstanding)`
to each selected debt in order, carrying the remainder. -/
def spec_allocate : ℚ → List Debt → List Debt
  | _, [] => []
  | r, d :: ds =>
      let portion := min r (d.amount - d.paid)
      { d with paid := d.paid + portion } :: spec_allocate (r - portion) ds

theorem spec_allocate_zero (ds : List Debt) (h : ∀ d ∈ ds, d.paid ≤ d.amount) :
    spec_allocate 0 ds = ds := by
  induction ds with
  | nil => rfl
  | cons d tl ih =>
    have hd := h d (by simp)
    have hmin : min (0 : ℚ) (d.amount - d.paid) = 0 :=
      min_eq_left (by linarith)
    simp only [spec_allocate, hmin, add_zero, sub_zero]
    rw [ih (fun x hx => h x (by simp [hx]))]

theorem walk_debts_eq_spec_allocate (r : ℚ) (ds : List Debt) (hr : 0 ≤ r)
    (h : ∀ d ∈ ds, d.paid ≤ d.amount) :
    (walk_debts r ds).1 = spec_allocate r ds := by
  induction ds generalizing r with
  | nil => rfl
  | cons d tl ih =>
    have hd := h d (by simp)
    have htl : ∀ x ∈ tl, x.paid ≤ x.amount := fun x hx => h x (by simp [hx])
    by_cases hout : d.amount - d.paid ≤ 0
    · have hout0 : d.amount - d.paid = 0 := le_antisymm hout (by linarith)
      have hmin : min r (d.amount - d.paid) = 0 := by rw [hout0]; exact min_eq_right hr
      simp only [walk_debts, spec_allocate, if_pos hout, hmin, add_zero, sub_zero]
      rw [ih r hr htl]
    · have hmin_le : min r (d.amount - d.paid) ≤ r := min_le_left _ _
      by_cases hstop : r - min r (d.amount - d.paid) ≤ 0
      · have hr0 : r - min r (d.amount - d.paid) = 0 := le_antisymm hstop (by linarith)
        simp only [walk_debts, spec_allocate, if_neg hout, if_pos hstop]
        rw [hr0, spec_allocate_zero tl htl]
      · simp only [walk_debts, spec_allocate, if_neg hout, if_neg hstop]
        rw [ih _ (by linarith) htl]

/-- C5: for an authorized `pay_off_debt` call with a positive 2-decimal
amount on an existing client whose stored debts are not overpaid: the open
debts selected in the untargeted case are exactly the client's debts with
positive outstanding, in creation-time (FIFO) order; the applied amount is
`min(amount, totalDebt)` when `totalDebt > 0` and the raw amount otherwise;
the walk adds `min(remaining, outstanding)` to each selected debt in order
(the targeted debt alone when a valid `debt_id` is supplied); `total_debt`
drops by the applied amount floored at 0; and the recorded payment carries
the applied amount. -/
theorem C5_pay_off_debt_behavior (st : DebtState) (payload : DebtPaymentCreate) (u : AuthUser)
    (td : ℚ) (hc : st.clients payload.client_id = some td) (hpos : 0 < payload.amount)
    (hqa : quantize2 payload.amount = payload.amount) (hqt : quantize2 td = td)
    (hrole : u.role = "admin") (hout : ∀ d ∈ st.debts, d.paid ≤ d.amount)
    (htarget : ∀ did, optTruthy payload.debt_id = some did →
      ∃ d, st.debts.find? (fun x => x.id == did) = some d ∧
        d.client_id = payload.client_id) :
    List.Pairwise (fun a b => a.created_at ≤ b.created_at)
      (select_debts st.debts payload.client_id) ∧
    (select_debts st.debts payload.client_id).Perm
      (st.debts.filter (fun d =>
        decide (d.client_id = payload.client_id) && decide (d.paid < d.amount))) ∧
    ∃ st' pay, pay_off_debt st payload u = .ok (st', pay) ∧
      pay.amount = (if 0 < td then min payload.amount td else payload.amount) ∧
      st'.clients payload.client_id =
        some (max (td - (if 0 < td then min payload.amount td else payload.amount)) 0) ∧
      st'.debts = replace_debts st.debts
        (spec_allocate (if 0 < td then min payload.amount td else payload.amount)
          (match optTruthy payload.debt_id with
           | some did => (st.debts.find? (fun x => x.id == did)).toList
           | none => select_debts st.debts payload.client_id)) := by
  have hsorted : List.Pairwise (fun a b => a.created_at ≤ b.created_at)
      (select_debts st.debts payload.client_id) := by
    have := @List.sorted_mergeSort Debt
      (fun (a b : Debt) => decide (a.created_at ≤ b.created_at))
      (fun a b c hab hbc => by simp only [decide_eq_true_eq] at *; omega)
      (fun a b => by
        rcases Nat.le_total a.created_at b.created_at with h | h <;> simp [h])
      (st.debts.filter (fun d =>
        decide (d.client_id = payload.client_id) && decide (d.paid < d.amount)))
    exact (this).imp (fun h => by simpa using h)
  have hperm : (select_debts st.debts payload.client_id).Perm
      (st.debts.filter (fun d =>
        decide (d.client_id = payload.client_id) && decide (d.paid < d.amount))) :=
    List.mergeSort_perm _ _
  refine ⟨hsorted, hperm, ?_⟩
  have happlied : (0 : ℚ) ≤ if 0 < td then min payload.amount td else payload.amount := by
    split
    · next h => exact le_min hpos.le h.le
    · exact hpos.le
  have hr1 : ¬(u.role ≠ "admin" ∧ u.branch_id = none) := by simp [hrole]
  have hr2 : ¬(u.role ≠ "admin" ∧ (optTruthy payload.branch_id).isSome = true ∧
      optTruthy payload.branch_id ≠ u.branch_id) := by simp [hrole]
  rcases hdid : optTruthy payload.debt_id with _ | did
  · have houtsel : ∀ d ∈ select_debts st.debts payload.client_id, d.paid ≤ d.amount := by
      intro d hd
      exact hout d (List.mem_filter.mp ((List.mem_mergeSort).mp hd)).1
    have hred : pay_off_debt st payload u = .ok
        ({ clients := fun c => if c = payload.client_id then
             some (max (td - (if 0 < td then min payload.amount td else payload.amount)) 0)
             else st.clients c,
           debts := replace_debts st.debts
             (walk_debts (if 0 < td then min payload.amount td else payload.amount)
               (select_debts st.debts payload.client_id)).1 },
         { client_id := payload.client_id, debt_id := payload.debt_id,
           amount := if 0 < td then min payload.amount td else payload.amount,
           payment_type := payload.payment_type, processed_by_id := u.id,
           branch_id := match optTruthy payload.branch_id with
             | some b => some b
             | none => u.branch_id }) := by
      simp only [pay_off_debt, hc]
      rw [if_neg (not_le.mpr hpos), if_neg hr1, if_neg hr2]
      simp only [hdid, hqa, hqt]
    refine ⟨_, _, hred, rfl, ?_, ?_⟩
    · simp
    · simp only []
      rw [walk_debts_eq_spec_allocate _ _ happlied houtsel]
  · obtain ⟨d0, hfind, hcl⟩ := htarget did hdid
    have hd0mem : d0 ∈ st.debts := List.mem_of_find?_eq_some hfind
    have houtsel : ∀ x ∈ [d0], x.paid ≤ x.amount := by
      intro x hx
      rw [List.mem_singleton] at hx
      rw [hx]
      exact hout d0 hd0mem
    have hred : pay_off_debt st payload u = .ok
        ({ clients := fun c => if c = payload.client_id then
             some (max (td - (if 0 < td then min payload.amount td else payload.amount)) 0)
             else st.clients c,
           debts := replace_debts st.debts
             (walk_debts (if 0 < td then min payload.amount td else payload.amount) [d0]).1 },
         { client_id := payload.client_id, debt_id := payload.debt_id,
           amount := if 0 < td then min payload.amount td else payload.amount,
           payment_type := payload.payment_type, processed_by_id := u.id,
           branch_id := match optTruthy payload.branch_id with
             | some b => some b
             | none => u.branch_id }) := by
      simp only [pay_off_debt, hc]
      rw [if_neg (not_le.mpr hpos), if_neg hr1, if_neg hr2]
      simp only [hdid, hfind, hqa, hqt]
      rw [if_neg (by simp [hcl])]
    refine ⟨_, _, hred, rfl, ?_, ?_⟩
    · simp
    · simp only [hfind, Option.toList_some]
      rw [walk_debts_eq_spec_allocate _ _ happlied houtsel]

/-- A client with id 1 owing 80, from a single debt row of 80. -/
def stC5 : DebtState :=
  { clients := fun c => if c = 1 then some 80 else none,
    debts := [{ id := 1, client_id := 1, amount := 80, paid := 0, created_at := 5 }] }

/-- An untargeted cash payment of 50 for client 1. -/
def plC5 : DebtPaymentCreate :=
  { client_id := 1, amount := 50, payment_type := "cash", branch_id := none, debt_id := none }

/-- Witness for C5: paying 50 against a total debt of 80 applies 50, reduces
`total_debt` to 30, and pays the single open debt by 50. -/
theorem C5_pay_off_debt_behavior_witness :
    (stC5.clients plC5.client_id = some 80 ∧ 0 < plC5.amount ∧
      quantize2 plC5.amount = plC5.amount ∧ quantize2 (80 : ℚ) = 80 ∧
      adminUser.role = "admin" ∧ (∀ d ∈ stC5.debts, d.paid ≤ d.amount) ∧
      (∀ did, optTruthy plC5.debt_id = some did →
        ∃ d, stC5.debts.find? (fun x => x.id == did) = some d ∧
          d.client_id = plC5.client_id)) ∧
    (List.Pairwise (fun a b => a.created_at ≤ b.created_at)
      (select_debts stC5.debts plC5.client_id) ∧
    (select_debts stC5.debts plC5.client_id).Perm
      (stC5.debts.filter (fun d =>
        decide (d.client_id = plC5.client_id) && decide (d.paid < d.amount))) ∧
    ∃ st' pay, pay_off_debt stC5 plC5 adminUser = .ok (st', pay) ∧
      pay.amount = (if 0 < (80 : ℚ) then min plC5.amount 80 else plC5.amount) ∧
      st'.clients plC5.client_id =
        some (max ((80 : ℚ) - (if 0 < (80 : ℚ) then min plC5.amount 80 else plC5.amount)) 0) ∧
      st'.debts = replace_debts stC5.debts
        (spec_allocate (if 0 < (80 : ℚ) then min plC5.amount 80 else plC5.amount)
          (match optTruthy plC5.debt_id with
           | some did => (stC5.debts.find? (fun x => x.id == did)).toList
           | none => select_debts stC5.debts plC5.client_id))) :=
  ⟨⟨rfl, by norm_num [plC5], by
      have h := quantize2_natCast 50
      push_cast at h
      simpa [plC5] using h, by
      have h := quantize2_natCast 80
      push_cast at h
      simpa using h, rfl, by
      intro d hd
      simp only [stC5, List.mem_singleton] at hd
      rw [hd]
      norm_num, by
      intro did h
      simp [plC5, optTruthy] at h⟩,
   C5_pay_off_debt_behavior stC5 plC5 adminUser 80 rfl (by norm_num [plC5])
     (by
      have h := quantize2_natCast 50
      push_cast at h
      simpa [plC5] using h)
     (by
      have h := quantize2_natCast 80
      push_cast at h
      simpa using h)
     rfl
     (by
      intro d hd
      simp only [stC5, List.mem_singleton] at hd
      rw [hd]
      norm_num)
     (by
      intro did h
      simp [plC5, optTruthy] at h)⟩

/-- The outstanding-amounts sum of the spec's debt-balance invariant:
`sum(max(debt.amount - debt.paid, 0) for debt in client.debts)`. -/
def debtOutstandingSum (debts : List Debt) (cid : Nat) : ℚ :=
  ((debts.filter (fun d => decide (d.client_id = cid))).map
    (fun d => max (d.amount - d.paid) 0)).sum

/-- Client 1 owes 100 in total, from two open debts of 50 each
(ids 11 and 12, in creation order). -/
def stC2 : DebtState :=
  { clients := fun c => if c = 1 then some 100 else none,
    debts := [{ id := 11, client_id := 1, amount := 50, paid := 0, created_at := 1 },
              { id := 12, client_id := 1, amount := 50, paid := 0, created_at := 2 }] }

/-- A payment of 80 explicitly targeted at debt 11 (which has only 50
outstanding). -/
def plC2 : DebtPaymentCreate :=
  { client_id := 1, amount := 80, payment_type := "cash", branch_id := none,
    debt_id := some 11 }

/-- The client's stored `total_debt` after a successful payment. -/
def payResultTotalDebt (r : Except ApiError (DebtState × DebtPaymentRec)) (cid : Nat) :
    Option ℚ :=
  match r with
  | .ok (st, _) => st.clients cid
  | .error _ => none

/-- The invariant sum over the client's debts after a successful payment. -/
def payResultOutstandingSum (r : Except ApiError (DebtState × DebtPaymentRec)) (cid : Nat) :
    Option ℚ :=
  match r with
  | .ok (st, _) => some (debtOutstandingSum st.debts cid)
  | .error _ => none

/-- C2 fails on the code: starting from a state satisfying the invariant
(`total_debt = 100 =` sum of outstanding), a targeted payment of 80 against
debt 11 (outstanding 50) allocates only 50 to the target but still decrements
`total_debt` by the full applied 80, leaving `total_debt = 20` while the
debts sum to 50 outstanding. -/
theorem C2_debt_invariant_code_bug :
    stC2.clients 1 = some (debtOutstandingSum stC2.debts 1) ∧
    payResultTotalDebt (pay_off_debt stC2 plC2 adminUser) 1 = some 20 ∧
    payResultOutstandingSum (pay_off_debt stC2 plC2 adminUser) 1 = some 50 ∧
    (20 : ℚ) ≠ 50 := by
  refine ⟨by norm_num [stC2, debtOutstandingSum], ?_, ?_, by norm_num⟩
  · norm_num [pay_off_debt, stC2, plC2, adminUser, optTruthy, quantize2, roundHalfEven,
      walk_debts, replace_debts, payResultTotalDebt]
  · norm_num [pay_off_debt, stC2, plC2, adminUser, optTruthy, quantize2, roundHalfEven,
      walk_debts, replace_debts, payResultOutstandingSum, debtOutstandingSum]

/-- A `sales_items` row (fields used by the sale and return flows).
`quantity` is an `Integer` column; `price`/`total` carry money. -/
structure SaleItemRec where
  id : Nat
  product_id : Nat
  quantity : ℤ
  price : ℚ
  total : ℚ
  deriving DecidableEq

/-- A `sales` row (fields used by the return flows): the branch, the client,
the three payment pools, and the line items. -/
structure Sale where
  id : Nat
  branch_id : Nat
  client_id : Option Nat
  paid_cash : ℚ
  paid_card : ℚ
  paid_debt : ℚ
  items : List SaleItemRec
  deriving DecidableEq

/-- A `returns` row as consumed by `calculate_return_breakdowns`: its id,
parent sale, creation time (the sort key), the amounts of its `ReturnItem`s
(`item.amount for item in entry.items`), and the recorded
`debt_offset_amount`. -/
structure ReturnRec where
  id : Nat
  sale_id : Option Nat
  created_at : Nat
  item_amounts : List ℚ
  debt_offset_amount : Option ℚ
  deriving DecidableEq

/-- `app/services/returns.py::ReturnBreakdown`. -/
structure ReturnBreakdown where
  total : ℚ
  cash : ℚ
  card : ℚ
  debt : ℚ
  deriving DecidableEq

/-- The inner loop of `calculate_return_breakdowns` over one sale's returns
(already sorted by creation time), threading the three pools.  A return with
a positive recorded debt offset takes `min(offset, total)` from debt and the
rest from cash without touching the pools; any other return drains
debt pool, then cash pool, then card pool, and any uncovered remainder is
added to its card bucket (the pools are decremented only by what they
actually supplied). -/
def process_sale_returns : ℚ → ℚ → ℚ → List ReturnRec → List (Nat × ReturnBreakdown)
  | _, _, _, [] => []
  | cash_pool, card_pool, debt_pool, entry :: rest =>
      let total_amount := entry.item_amounts.sum
      let debt_offset := (entry.debt_offset_amount).getD 0
      if 0 < debt_offset then
        let debt_used := min debt_offset total_amount
        let cash_used := max (total_amount - debt_used) 0
        (entry.id, ⟨total_amount, cash_used, 0, debt_used⟩) ::
          process_sale_returns cash_pool card_pool debt_pool rest
      else
        let debt_used := min total_amount debt_pool
        let rem1 := total_amount - debt_used
        let cash_used := min rem1 cash_pool
        let rem2 := rem1 - cash_used
        let card_used0 := min rem2 card_pool
        let rem3 := rem2 - card_used0
        let card_used := if 0 < rem3 then card_used0 + rem3 else card_used0
        (entry.id, ⟨total_amount, cash_used, card_used, debt_used⟩) ::
          process_sale_returns (cash_pool - cash_used) (card_pool - card_used0)
            (debt_pool - debt_used) rest

/-- `app/services/returns.py::calculate_return_breakdowns`.  Returns are
grouped by parent sale (first-occurrence order, skipping rows without a
resolvable sale), each group is sorted by creation time ascending, and the
pools are initialized from the sale's `paid_cash`/`paid_card`/`paid_debt`. -/
def calculate_return_breakdowns (returns : List ReturnRec) (sales : Nat → Option Sale) :
    List (Nat × ReturnBreakdown) :=
  ((returns.filterMap (fun r => r.sale_id)).eraseDups).flatMap (fun sid =>
    match sales sid with
    | none => []
    | some sale =>
        process_sale_returns sale.paid_cash sale.paid_card sale.paid_debt
          ((returns.filter (fun r => r.sale_id == some sid)).mergeSort
            (fun a b => decide (a.created_at ≤ b.created_at))))

theorem process_sale_returns_conservation :
    ∀ (rs : List ReturnRec) (cp kp dp : ℚ) (rid : Nat) (bd : ReturnBreakdown),
      (rid, bd) ∈ process_sale_returns cp kp dp rs →
      bd.cash + bd.card + bd.debt = bd.total := by
  intro rs
  induction rs with
  | nil => intro cp kp dp rid bd h; simp [process_sale_returns] at h
  | cons entry rest ih =>
    intro cp kp dp rid bd h
    simp only [process_sale_returns] at h
    by_cases hoff : 0 < (entry.debt_offset_amount).getD 0
    · rw [if_pos hoff] at h
      rcases List.mem_cons.mp h with hhead | htail
      · obtain ⟨hrid, hbd2⟩ := (Prod.mk.injEq _ _ _ _).mp hhead
        subst hbd2
        dsimp only
        have hmin : min ((entry.debt_offset_amount).getD 0) entry.item_amounts.sum ≤
            entry.item_amounts.sum := min_le_right _ _
        rw [max_eq_left (by linarith)]
        ring
      · exact ih cp kp dp rid bd htail
    · rw [if_neg hoff] at h
      rcases List.mem_cons.mp h with hhead | htail
      · obtain ⟨hrid, hbd2⟩ := (Prod.mk.injEq _ _ _ _).mp hhead
        subst hbd2
        dsimp only
        set t := entry.item_amounts.sum with ht
        set du := min t dp with hdu
        set cu := min (t - du) cp with hcu
        set ku0 := min (t - du - cu) kp with hku0
        have hr3 : 0 ≤ t - du - cu - ku0 := by
          have : ku0 ≤ t - du - cu := min_le_left _ _
          linarith
        by_cases hpos3 : 0 < t - du - cu - ku0
        · rw [if_pos hpos3]
          ring
        · rw [if_neg hpos3]
          have hzero : t - du - cu - ku0 = 0 := le_antisymm (not_lt.mp hpos3) hr3
          have hku : ku0 = t - du - cu := by linarith
          rw [hku]
          ring
      · exact ih _ _ _ rid bd htail

/-- C3: every breakdown produced by `calculate_return_breakdowns` satisfies
`cash + card + debt = total` exactly — in the debt-offset branch the cash
component is the exact complement of the debt component, and in the
pool-draining branch the uncovered remainder is folded into the card bucket,
so the three components always reassemble the return's total. -/
theorem C3_return_breakdown_conservation (returns : List ReturnRec)
    (sales : Nat → Option Sale) (rid : Nat) (bd : ReturnBreakdown)
    (h : (rid, bd) ∈ calculate_return_breakdowns returns sales) :
    bd.cash + bd.card + bd.debt = bd.total := by
  rw [calculate_return_breakdowns, List.mem_flatMap] at h
  obtain ⟨sid, _, hmem⟩ := h
  rcases hsale : sales sid with _ | sale
  · rw [hsale] at hmem
    simp at hmem
  · rw [hsale] at hmem
    exact process_sale_returns_conservation _ _ _ _ rid bd hmem

/-- Sale 10 was paid 5 cash, 0 card, 0 debt. -/
def salesC3 : Nat → Option Sale := fun sid =>
  if sid = 10 then
    some { id := 10, branch_id := 1, client_id := none, paid_cash := 5, paid_card := 0,
           paid_debt := 0, items := [] }
  else none

/-- A single return of 30 on sale 10 — more than the sale's pools hold. -/
def returnsC3 : List ReturnRec :=
  [{ id := 1, sale_id := some 10, created_at := 3, item_amounts := [30],
     debt_offset_amount := none }]

/-- Witness for C3, exercising the card fallback: pools (cash 5, card 0,
debt 0) cover only 5 of the 30, the uncovered 25 lands in the card bucket,
and 5 + 25 + 0 = 30. -/
theorem C3_return_breakdown_conservation_witness :
    ((1, (⟨30, 5, 25, 0⟩ : ReturnBreakdown)) ∈ calculate_return_breakdowns returnsC3 salesC3) ∧
    ((⟨30, 5, 25, 0⟩ : ReturnBreakdown).cash + (⟨30, 5, 25, 0⟩ : ReturnBreakdown).card +
      (⟨30, 5, 25, 0⟩ : ReturnBreakdown).debt = (⟨30, 5, 25, 0⟩ : ReturnBreakdown).total) :=
  ⟨by
    rw [calculate_return_breakdowns]
    refine List.mem_flatMap.mpr ⟨10, by decide, ?_⟩
    norm_num [returnsC3, salesC3, process_sale_returns],
   C3_return_breakdown_conservation returnsC3 salesC3 1 ⟨30, 5, 25, 0⟩
     (by
      rw [calculate_return_breakdowns]
      refine List.mem_flatMap.mpr ⟨10, by decide, ?_⟩
      norm_num [returnsC3, salesC3, process_sale_returns])⟩

/-- C4: `calculate_return_breakdowns` processes each sale's returns sorted by
creation time ascending (a permutation of that sale's returns) against pools
initialized from the sale's paid amounts; a return with a positive recorded
debt offset gets debt = `min(offset, total)`, cash = the rest, card = 0 and
leaves the pools untouched; every other return drains debt pool, then cash
pool, then card pool, each pool dropping by exactly what it supplied, with
any uncovered remainder attributed to the card bucket. -/
theorem C4_breakdown_order_and_pools (cash_pool card_pool debt_pool : ℚ)
    (entry : ReturnRec) (rest : List ReturnRec)
    (returns : List ReturnRec) (sales : Nat → Option Sale) (sid : Nat) :
    (calculate_return_breakdowns returns sales =
      ((returns.filterMap (fun r => r.sale_id)).eraseDups).flatMap (fun s =>
        match sales s with
        | none => []
        | some sale =>
            process_sale_returns sale.paid_cash sale.paid_card sale.paid_debt
              ((returns.filter (fun r => r.sale_id == some s)).mergeSort
                (fun a b => decide (a.created_at ≤ b.created_at)))) ∧
      List.Pairwise (fun a b => a.created_at ≤ b.created_at)
        ((returns.filter (fun r => r.sale_id == some sid)).mergeSort
          (fun a b => decide (a.created_at ≤ b.created_at))) ∧
      ((returns.filter (fun r => r.sale_id == some sid)).mergeSort
        (fun a b => decide (a.created_at ≤ b.created_at))).Perm
        (returns.filter (fun r => r.sale_id == some sid))) ∧
    (0 < (entry.debt_offset_amount).getD 0 →
      process_sale_returns cash_pool card_pool debt_pool (entry :: rest) =
        (entry.id, ⟨entry.item_amounts.sum,
            entry.item_amounts.sum -
              min ((entry.debt_offset_amount).getD 0) entry.item_amounts.sum,
            0,
            min ((entry.debt_offset_amount).getD 0) entry.item_amounts.sum⟩) ::
          process_sale_returns cash_pool card_pool debt_pool rest) ∧
    (¬ 0 < (entry.debt_offset_amount).getD 0 →
      process_sale_returns cash_pool card_pool debt_pool (entry :: rest) =
        (entry.id, ⟨entry.item_amounts.sum,
            min (entry.item_amounts.sum - min entry.item_amounts.sum debt_pool) cash_pool,
            entry.item_amounts.sum - min entry.item_amounts.sum debt_pool -
              min (entry.item_amounts.sum - min entry.item_amounts.sum debt_pool) cash_pool,
            min entry.item_amounts.sum debt_pool⟩) ::
          process_sale_returns
            (cash_pool -
              min (entry.item_amounts.sum - min entry.item_amounts.sum debt_pool) cash_pool)
            (card_pool -
              min (entry.item_amounts.sum - min entry.item_amounts.sum debt_pool -
                min (entry.item_amounts.sum - min entry.item_amounts.sum debt_pool) cash_pool)
                card_pool)
            (debt_pool - min entry.item_amounts.sum debt_pool) rest) := by
  refine ⟨⟨rfl, ?_, List.mergeSort_perm _ _⟩, ?_, ?_⟩
  · have := @List.sorted_mergeSort ReturnRec
      (fun (a b : ReturnRec) => decide (a.created_at ≤ b.created_at))
      (fun a b c hab hbc => by simp only [decide_eq_true_eq] at *; omega)
      (fun a b => by
        rcases Nat.le_total a.created_at b.created_at with h | h <;> simp [h])
      (returns.filter (fun r => r.sale_id == some sid))
    exact (this).imp (fun h => by simpa using h)
  · intro hoff
    simp only [process_sale_returns, if_pos hoff]
    have hmin : min ((entry.debt_offset_amount).getD 0) entry.item_amounts.sum ≤
        entry.item_amounts.sum := min_le_right _ _
    rw [max_eq_left (by linarith)]
  · intro hoff
    simp only [process_sale_returns, if_neg hoff]
    set t := entry.item_amounts.sum with ht
    set du := min t debt_pool with hdu
    set cu := min (t - du) cash_pool with hcu
    set ku0 := min (t - du - cu) card_pool with hku0
    have hr3 : 0 ≤ t - du - cu - ku0 := by
      have : ku0 ≤ t - du - cu := min_le_left _ _
      linarith
    have hcard : (if 0 < t - du - cu - ku0 then ku0 + (t - du - cu - ku0) else ku0) =
        t - du - cu := by
      by_cases hpos3 : 0 < t - du - cu - ku0
      · rw [if_pos hpos3]; ring
      · rw [if_neg hpos3]
        have hzero : t - du - cu - ku0 = 0 := le_antisymm (not_lt.mp hpos3) hr3
        linarith
    rw [hcard]

theorem quantityAt_adjust_false (stock : StockMap) (b p : Nat) (d : ℚ) :
    quantityAt (adjust_stock stock b p d false).2 b p = max (quantityAt stock b p + d) 0 := by
  rw [quantityAt_adjust_self, adjust_stock_fst]
  rcases lt_or_le (quantityAt stock b p + d) 0 with hlt | hle
  · simp [hlt, max_eq_right hlt.le]
  · simp [not_lt.mpr hle, max_eq_left hle]

/-- A `return_items` row. -/
structure ReturnItemRow where
  sale_item_id : Nat
  quantity : ℤ
  amount : ℚ
  deriving DecidableEq

/-- The stores touched by `_build_return_items`: branch stock, the
denormalized `products.quantity` counter, and the previously persisted
`return_items` rows (pending rows of the current request are not yet
visible to its aggregate query). -/
structure ReturnState where
  stock : StockMap
  products : Nat → Option ℤ
  return_items : List ReturnItemRow

/-- One entry of the `by_item` request body. -/
structure ReturnItemInput where
  sale_item_id : Nat
  quantity : ℤ
  deriving DecidableEq

/-- `schemas/returns.py::ReturnCreate` (the fields `_build_return_items`
reads). -/
structure ReturnCreate where
  sale_id : Nat
  type : String
  items : List ReturnItemInput
  deriving DecidableEq

/-- `select(coalesce(sum(ReturnItem.quantity), 0)).where(sale_item_id == s)`:
the total quantity already returned against one sale item. -/
def returnedQty (rows : List ReturnItemRow) (siid : Nat) : ℤ :=
  ((rows.filter (fun r => r.sale_item_id == siid)).map (fun r => r.quantity)).sum

/-- The `by_item` half of phase 1 of `_build_return_items`: resolve each
requested `(sale_item_id, quantity)` against the sale's items, rejecting an
unknown line or a quantity outside `1..sale_item.quantity`. -/
def resolve_return_inputs (sale_items : List SaleItemRec) :
    List ReturnItemInput → Except ApiError (List (SaleItemRec × ℤ))
  | [] => .ok []
  | e :: rest =>
      match sale_items.find? (fun it => it.id == e.sale_item_id) with
      | none => .error .notFound
      | some sale_item =>
          if e.quantity ≤ 0 ∨ sale_item.quantity < e.quantity then .error .validation
          else
            match resolve_return_inputs sale_items rest with
            | .error er => .error er
            | .ok others => .ok ((sale_item, e.quantity) :: others)

/-- Phase 2 of `_build_return_items`: per resolved line, re-read the returned
total under lock, reject when the requested quantity exceeds
`max(original − returned, 0)`, compute the line amount from the recorded
total (falling back to the unit price when the recorded quantity is 0),
restock the branch via `adjust_stock` (with its default
`allow_negative=False`), and bump `products.quantity` when the product row
exists. -/
def process_return_items (sale : Sale) (st : ReturnState) :
    List (SaleItemRec × ℤ) → Except ApiError (ReturnState × List ReturnItemRow)
  | [] => .ok (st, [])
  | (sale_item, qty) :: rest =>
      let returned := returnedQty st.return_items sale_item.id
      let available_for_return := max (sale_item.quantity - returned) 0
      if available_for_return < qty then .error .returnNotAvailable
      else
        let unit_price := if sale_item.quantity ≠ 0 then
            sale_item.total / (sale_item.quantity : ℚ)
          else sale_item.price
        let amount := unit_price * (qty : ℚ)
        let stock' := (adjust_stock st.stock sale.branch_id sale_item.product_id
          (qty : ℚ) false).2
        let products' := fun p =>
          if p = sale_item.product_id then (st.products p).map (· + qty) else st.products p
        match process_return_items sale
            { st with stock := stock', products := products' } rest with
        | .error e => .error e
        | .ok (st'', rows) =>
            .ok (st'', { sale_item_id := sale_item.id, quantity := qty, amount := amount } :: rows)

/-- `routes_returns.py::_build_return_items`.  For `by_receipt` the processed
lines are every sale item with its full original `item.quantity`; for
`by_item` the caller's resolved pairs.  Raising rolls the request back, so an
`.error` carries no state. -/
def build_return_items (sale : Sale) (payload : ReturnCreate) (st : ReturnState) :
    Except ApiError (ReturnState × List ReturnItemRow) :=
  if payload.type ≠ "by_receipt" ∧ payload.type ≠ "by_item" then .error .validation
  else if payload.type = "by_receipt" then
    process_return_items sale st (sale.items.map (fun it => (it, it.quantity)))
  else
    if payload.items = [] then .error .validation
    else
      match resolve_return_inputs sale.items payload.items with
      | .error e => .error e
      | .ok pairs => process_return_items sale st pairs

theorem process_full_ok (sale : Sale) :
    ∀ (its : List SaleItemRec) (st : ReturnState),
      (∀ it ∈ its, returnedQty st.return_items it.id = 0) →
      ∃ st', process_return_items sale st (its.map (fun it => (it, it.quantity))) =
        .ok (st', its.map (fun it =>
          { sale_item_id := it.id, quantity := it.quantity,
            amount := (if (it.quantity : ℤ) ≠ 0 then it.total / (it.quantity : ℚ)
              else it.price) * (it.quantity : ℚ) })) := by
  intro its
  induction its with
  | nil => intro st _; exact ⟨st, rfl⟩
  | cons it0 rest ih =>
    intro st hret
    have h0 : returnedQty st.return_items it0.id = 0 := hret it0 (by simp)
    have hava : ¬ (max (it0.quantity - returnedQty st.return_items it0.id) 0 < it0.quantity) := by
      rw [h0]
      simp only [sub_zero, not_lt]
      exact le_max_left _ _
    obtain ⟨st', hres⟩ := ih
      { st with
        stock := (adjust_stock st.stock sale.branch_id it0.product_id (it0.quantity : ℚ) false).2,
        products := fun p =>
          if p = it0.product_id then (st.products p).map (· + it0.quantity) else st.products p }
      (fun it hit => hret it (by simp [hit]))
    refine ⟨st', ?_⟩
    simp only [List.map_cons, process_return_items, if_neg hava, hres]

theorem process_full_err (sale : Sale) :
    ∀ (its : List SaleItemRec) (st : ReturnState),
      (∃ it ∈ its, 0 < returnedQty st.return_items it.id ∧ 0 < it.quantity) →
      process_return_items sale st (its.map (fun it => (it, it.quantity))) =
        .error .returnNotAvailable := by
  intro its
  induction its with
  | nil => intro st hex; simp at hex
  | cons it0 rest ih =>
    intro st hex
    by_cases hhead : max (it0.quantity - returnedQty st.return_items it0.id) 0 < it0.quantity
    · simp only [List.map_cons, process_return_items, if_pos hhead]
    · obtain ⟨it, hit, hret, hq⟩ := hex
      rcases List.mem_cons.mp hit with rfl | hitr
      · exfalso
        apply hhead
        rcases le_or_lt 0 (it.quantity - returnedQty st.return_items it.id) with hnn | hneg
        · rw [max_eq_left hnn]
          omega
        · rw [max_eq_right hneg.le]
          exact hq
      · simp only [List.map_cons, process_return_items, if_neg hhead]
        rw [ih { st with
            stock := (adjust_stock st.stock sale.branch_id it0.product_id
              (it0.quantity : ℚ) false).2,
            products := fun p =>
              if p = it0.product_id then (st.products p).map (· + it0.quantity)
              else st.products p }
          ⟨it, hitr, hret, hq⟩]

/-- C8 (amended): a `by_receipt` return targets every sale item with its full
ORIGINAL quantity (`item.quantity`), not the remaining quantity: when no
quantity was previously returned on any line the call succeeds and returns
each line in full (the original then equals the remainder), but as soon as
some line with positive quantity has a positive previously-returned total,
the re-validation `qty > max(original − returned, 0)` fails and the whole
call errors — a `by_receipt` return after a prior partial return is
rejected rather than returning the remainder. -/
theorem C8_by_receipt_full_original (sale : Sale) (payload : ReturnCreate) (st : ReturnState)
    (htype : payload.type = "by_receipt") :
    ((∀ it ∈ sale.items, returnedQty st.return_items it.id = 0) →
      ∃ st', build_return_items sale payload st = .ok (st', sale.items.map (fun it =>
        { sale_item_id := it.id, quantity := it.quantity,
          amount := (if (it.quantity : ℤ) ≠ 0 then it.total / (it.quantity : ℚ)
            else it.price) * (it.quantity : ℚ) }))) ∧
    ((∃ it ∈ sale.items, 0 < returnedQty st.return_items it.id ∧ 0 < it.quantity) →
      build_return_items sale payload st = .error .returnNotAvailable) := by
  have hred : build_return_items sale payload st =
      process_return_items sale st (sale.items.map (fun it => (it, it.quantity))) := by
    simp [build_return_items, htype]
  constructor
  · intro hzero
    obtain ⟨st', hres⟩ := process_full_ok sale sale.items st hzero
    exact ⟨st', by rw [hred, hres]⟩
  · intro hex
    rw [hred, process_full_err sale sale.items st hex]

/-- A sale at branch 1 of 2 units of product 7 at price 10 (line total 20),
paid in cash. -/
def saleC8 : Sale :=
  { id := 1, branch_id := 1, client_id := none, paid_cash := 20, paid_card := 0,
    paid_debt := 0, items := [{ id := 1, product_id := 7, quantity := 2, price := 10,
                                total := 20 }] }

/-- One unit of the sale's single line was already returned. -/
def stC8 : ReturnState :=
  { stock := fun _ _ => none, products := fun _ => none,
    return_items := [{ sale_item_id := 1, quantity := 1, amount := 10 }] }

/-- A `by_receipt` request for that sale. -/
def plC8 : ReturnCreate := { sale_id := 1, type := "by_receipt", items := [] }

/-- No prior returns at all. -/
def stC8empty : ReturnState :=
  { stock := fun _ _ => none, products := fun _ => none, return_items := [] }

/-- Counterexample to C8 as stated: after a prior partial return of 1 of 2
units, the line still has remainder 1, yet the `by_receipt` return fails
(it requests the full original 2 > available 1) instead of succeeding with
the remainder. -/
theorem C8_counterexample :
    build_return_items saleC8 plC8 stC8 = .error .returnNotAvailable ∧
    max (saleC8.items.map (fun it => it.quantity)).sum
        (returnedQty stC8.return_items 1) - returnedQty stC8.return_items 1 = 1 := by
  constructor
  · have h : (∃ it ∈ saleC8.items, 0 < returnedQty stC8.return_items it.id ∧
        0 < it.quantity) := by
      refine ⟨saleC8.items.head (by simp [saleC8]), by simp [saleC8], ?_, by simp [saleC8]⟩
      simp [saleC8, stC8, returnedQty]
    have hred : build_return_items saleC8 plC8 stC8 =
        process_return_items saleC8 stC8 (saleC8.items.map (fun it => (it, it.quantity))) := by
      simp [build_return_items, plC8]
    rw [hred, process_full_err saleC8 saleC8.items stC8 h]
  · simp [saleC8, stC8, returnedQty]

/-- Witness for C8 (amended): with no prior returns the `by_receipt` return
succeeds and returns the single line's full 2 units; with 1 unit previously
returned it fails. -/
theorem C8_by_receipt_full_original_witness :
    (plC8.type = "by_receipt") ∧
    (((∀ it ∈ saleC8.items, returnedQty stC8empty.return_items it.id = 0) →
      ∃ st', build_return_items saleC8 plC8 stC8empty = .ok (st', saleC8.items.map (fun it =>
        { sale_item_id := it.id, quantity := it.quantity,
          amount := (if (it.quantity : ℤ) ≠ 0 then it.total / (it.quantity : ℚ)
            else it.price) * (it.quantity : ℚ) }))) ∧
    ((∃ it ∈ saleC8.items, 0 < returnedQty stC8empty.return_items it.id ∧ 0 < it.quantity) →
      build_return_items saleC8 plC8 stC8empty = .error .returnNotAvailable)) :=
  ⟨rfl, C8_by_receipt_full_original saleC8 plC8 stC8empty rfl⟩

/-- The branch stock at a pair after a successful `_build_return_items`. -/
def returnStockAt (r : Except ApiError (ReturnState × List ReturnItemRow)) (b p : Nat) :
    Option ℚ :=
  match r with
  | .ok (st, _) => some (quantityAt st.stock b p)
  | .error _ => none

/-- Branch 1 holds −10 units of product 7 (negative stock is reachable via
the counterparty-sale and income flows, which pass `allow_negative=True`
with negative deltas); nothing was returned before. -/
def stC9 : ReturnState :=
  { stock := fun b p => if b = 1 ∧ p = 7 then some (-10) else none,
    products := fun _ => none, return_items := [] }

/-- Counterexample to C9 as stated: the restock call in
`_build_return_items` does NOT pass `allow_negative=True` (it uses
`adjust_stock(db, sale.branch_id, product_id, qty)` with the default
`False`), so returning 2 units onto a stock of −10 is clamped to 0 — the
applied restock delta is 10, not the returned quantity 2. -/
theorem C9_counterexample :
    returnStockAt (build_return_items saleC8 plC8 stC9) 1 7 = some 0 ∧
    quantityAt stC9.stock 1 7 + (2 : ℚ) ≠ 0 := by
  constructor
  · norm_num [returnStockAt, build_return_items, plC8, saleC8, stC9, process_return_items,
      returnedQty, adjust_stock, quantityAt]
  · norm_num [quantityAt, stC9]

/-- C9 (amended): a single-line `by_item` return within the remaining
returnable quantity always succeeds — no stock level can block it — and
restocks the branch through `adjust_stock` with the positive returned
quantity and the DEFAULT `allow_negative=False`, so the resulting stock is
`max(previous + qty, 0)`: the full delta applies whenever the previous
stock is at least `-qty` (in particular whenever it is nonnegative), but a
more negative stock is clamped to 0 and the applied delta exceeds the
returned quantity. -/
theorem C9_restock_clamped (sale : Sale) (st : ReturnState) (siid : Nat) (q : ℤ)
    (it : SaleItemRec) (hfind : sale.items.find? (fun x => x.id == siid) = some it)
    (hq0 : 0 < q) (hqle : q ≤ it.quantity)
    (hava : q ≤ max (it.quantity - returnedQty st.return_items it.id) 0) :
    ∃ st' rows, build_return_items sale
        { sale_id := sale.id, type := "by_item",
          items := [{ sale_item_id := siid, quantity := q }] } st = .ok (st', rows) ∧
      quantityAt st'.stock sale.branch_id it.product_id =
        max (quantityAt st.stock sale.branch_id it.product_id + (q : ℚ)) 0 := by
  have hresolve : resolve_return_inputs sale.items [{ sale_item_id := siid, quantity := q }] =
      .ok [(it, q)] := by
    simp only [resolve_return_inputs, hfind]
    rw [if_neg (by push_neg; exact ⟨hq0, hqle⟩)]
  have hproc : process_return_items sale st [(it, q)] = .ok
      ({ st with
         stock := (adjust_stock st.stock sale.branch_id it.product_id (q : ℚ) false).2,
         products := fun p =>
           if p = it.product_id then (st.products p).map (· + q) else st.products p },
       [{ sale_item_id := it.id, quantity := q,
          amount := (if (it.quantity : ℤ) ≠ 0 then it.total / (it.quantity : ℚ) else it.price) *
            (q : ℚ) }]) := by
    simp only [process_return_items, if_neg (not_lt.mpr hava)]
  refine ⟨{ st with
      stock := (adjust_stock st.stock sale.branch_id it.product_id (q : ℚ) false).2,
      products := fun p =>
        if p = it.product_id then (st.products p).map (· + q) else st.products p },
    [{ sale_item_id := it.id, quantity := q,
       amount := (if (it.quantity : ℤ) ≠ 0 then it.total / (it.quantity : ℚ) else it.price) *
         (q : ℚ) }], ?_, ?_⟩
  · simp only [build_return_items]
    rw [if_neg (by simp), if_neg (by simp), if_neg (by simp), hresolve]
    exact hproc
  · show quantityAt (adjust_stock st.stock sale.branch_id it.product_id (q : ℚ) false).2
        sale.branch_id it.product_id = _
    rw [quantityAt_adjust_false]

/-- The single line of `saleC8`. -/
def itC9 : SaleItemRec := { id := 1, product_id := 7, quantity := 2, price := 10, total := 20 }

/-- Witness for C9 (amended): returning the 2 units of `saleC8`'s line onto
an absent stock row creates it at 0 and restocks to `max(0 + 2, 0) = 2`. -/
theorem C9_restock_clamped_witness :
    (saleC8.items.find? (fun x => x.id == 1) = some itC9 ∧ (0 : ℤ) < 2 ∧
      (2 : ℤ) ≤ itC9.quantity ∧
      (2 : ℤ) ≤ max (itC9.quantity - returnedQty stC8empty.return_items itC9.id) 0) ∧
    (∃ st' rows, build_return_items saleC8
        { sale_id := saleC8.id, type := "by_item",
          items := [{ sale_item_id := 1, quantity := 2 }] } stC8empty = .ok (st', rows) ∧
      quantityAt st'.stock saleC8.branch_id itC9.product_id =
        max (quantityAt stC8empty.stock saleC8.branch_id itC9.product_id + ((2 : ℤ) : ℚ)) 0) :=
  ⟨⟨rfl, by norm_num, by decide, by decide⟩,
   C9_restock_clamped saleC8 stC8empty 1 2 itC9 rfl (by norm_num) (by decide) (by decide)⟩

/-- One line of the sale-creation request body. -/
structure SaleCreateItem where
  product_id : Nat
  quantity : ℤ
  price : ℚ
  discount : ℚ
  deriving DecidableEq

/-- `schemas/sales.py::SaleCreate` (the fields `create_sale` reads; the
`branch_id` of the payload is ignored by the handler, which enforces the
configured store branch, passed below as an argument). -/
structure SaleCreate where
  client_id : Option Nat
  paid_cash : ℚ
  paid_card : ℚ
  paid_debt : ℚ
  payment_type : String
  items : List SaleCreateItem
  deriving DecidableEq

/-- The stores touched by `create_sale`: branch stock, the denormalized
`products.quantity` counter, `clients.total_debt`, and the `debts` table. -/
structure SaleState where
  stock : StockMap
  products : Nat → Option ℤ
  clients : Nat → Option ℚ
  debts : List Debt

/-- The per-item loop of `create_sale`: 404 on a missing product, 400 when
the requested quantity exceeds the branch stock, then
`line_total = (price − discount) * quantity`, a stock debit through
`adjust_stock` (default `allow_negative=False`), and
`product.quantity = max(product.quantity − item.quantity, 0)`.  Sale-item
row ids are the database's autoincrement, modelled as the position index.
The stored row keeps the line total (the `discount` column is written but
never read by the flows verified here). -/
def create_sale_loop (branch_id : Nat) :
    SaleState → Nat → List SaleCreateItem → Except ApiError (SaleState × List SaleItemRec × ℚ)
  | st, _, [] => .ok (st, [], 0)
  | st, idx, item :: rest =>
      match st.products item.product_id with
      | none => .error .notFound
      | some pq =>
          let available := quantityAt st.stock branch_id item.product_id
          if available < (item.quantity : ℚ) then .error .insufficientStock
          else
            let line_total := (item.price - item.discount) * (item.quantity : ℚ)
            let stock' := (adjust_stock st.stock branch_id item.product_id
              (-(item.quantity : ℚ)) false).2
            let products' := fun p =>
              if p = item.product_id then some (max (pq - item.quantity) 0) else st.products p
            match create_sale_loop branch_id
                { st with stock := stock', products := products' } (idx + 1) rest with
            | .error e => .error e
            | .ok (st'', rows, total) =>
                .ok (st'', { id := idx, product_id := item.product_id,
                             quantity := item.quantity, price := item.price,
                             total := line_total } :: rows, line_total + total)

/-- `routes_sales.py::create_sale`: a credit portion requires a client; the
item list must be nonempty; the per-item loop runs; the quantized paid total
must equal the quantized item total; a positive `paid_debt` then increments
the client's `total_debt` and appends a `Debt(amount=paid_debt, paid=0)`. -/
def create_sale (st : SaleState) (payload : SaleCreate)
    (branch_id sale_id debt_id now : Nat) : Except ApiError (SaleState × Sale) :=
  if 0 < payload.paid_debt ∧ optTruthy payload.client_id = none then .error .validation
  else if payload.items = [] then .error .validation
  else
    match create_sale_loop branch_id st 0 payload.items with
    | .error e => .error e
    | .ok (st1, rows, total) =>
        let paid_total := quantize2 (payload.paid_cash + payload.paid_card + payload.paid_debt)
        let total_q := quantize2 total
        if paid_total ≠ total_q then .error .validation
        else
          let sale : Sale := { id := sale_id, branch_id := branch_id,
                               client_id := payload.client_id,
                               paid_cash := payload.paid_cash, paid_card := payload.paid_card,
                               paid_debt := payload.paid_debt, items := rows }
          if 0 < payload.paid_debt then
            match optTruthy payload.client_id with
            | none => .error .validation
            | some cid =>
                match st1.clients cid with
                | none => .error .notFound
                | some td =>
                    .ok ({ st1 with
                           clients := fun c =>
                             if c = cid then some (td + payload.paid_debt) else st1.clients c,
                           debts := st1.debts ++ [{ id := debt_id, client_id := cid,
                                                    amount := payload.paid_debt, paid := 0,
                                                    created_at := now }] },
                      sale)
          else .ok (st1, sale)

/-- C10: besides the per-branch stock row, `create_sale` also writes the
denormalized global `products.quantity` counter, clamped at zero
(`max(product.quantity − item.quantity, 0)`), while `_build_return_items`
increments it by the returned quantity unconditionally; hence selling `n`
units when the counter holds `pq < n` (hitting the clamp) and then returning
the sale by receipt leaves the counter at `max(pq − n, 0) + n`, strictly
greater than the pre-sale `pq`. -/
theorem C10_product_counter_drift (st : SaleState) (branch_id pid sale_id debt_id now : Nat)
    (pq n : ℤ) (price : ℚ)
    (hprod : st.products pid = some pq)
    (hstock : (n : ℚ) ≤ quantityAt st.stock branch_id pid) :
    ∃ st1 sale, create_sale st
        { client_id := none, paid_cash := price * (n : ℚ), paid_card := 0, paid_debt := 0,
          payment_type := "cash",
          items := [{ product_id := pid, quantity := n, price := price, discount := 0 }] }
        branch_id sale_id debt_id now = .ok (st1, sale) ∧
      st1.products pid = some (max (pq - n) 0) ∧
      (∃ st2 rows, build_return_items sale
          { sale_id := sale_id, type := "by_receipt", items := [] }
          { stock := st1.stock, products := st1.products, return_items := [] } =
            .ok (st2, rows) ∧
        st2.products pid = some (max (pq - n) 0 + n) ∧
        (pq < n → pq < max (pq - n) 0 + n)) := by
  have hloop : create_sale_loop branch_id st 0
      [{ product_id := pid, quantity := n, price := price, discount := 0 }] = .ok
      ({ st with stock := (adjust_stock st.stock branch_id pid (-(n : ℚ)) false).2,
                 products := fun p => if p = pid then some (max (pq - n) 0) else st.products p },
       [{ id := 0, product_id := pid, quantity := n, price := price,
          total := (price - 0) * (n : ℚ) }], (price - 0) * (n : ℚ) + 0) := by
    simp only [create_sale_loop, hprod]
    rw [if_neg (not_lt.mpr hstock)]
  have hcreate : create_sale st
      { client_id := none, paid_cash := price * (n : ℚ), paid_card := 0, paid_debt := 0,
        payment_type := "cash",
        items := [{ product_id := pid, quantity := n, price := price, discount := 0 }] }
      branch_id sale_id debt_id now = .ok
      ({ st with stock := (adjust_stock st.stock branch_id pid (-(n : ℚ)) false).2,
                 products := fun p => if p = pid then some (max (pq - n) 0) else st.products p },
       { id := sale_id, branch_id := branch_id, client_id := none,
         paid_cash := price * (n : ℚ), paid_card := 0, paid_debt := 0,
         items := [{ id := 0, product_id := pid, quantity := n, price := price,
                     total := (price - 0) * (n : ℚ) }] }) := by
    simp only [create_sale]
    rw [if_neg (by simp), if_neg (by simp), hloop]
    dsimp only
    rw [if_neg (by
      rw [not_ne_iff]
      congr 1
      ring)]
    rw [if_neg (by simp)]
  refine ⟨_, _, hcreate, by simp, ?_⟩
  have hbuild : build_return_items
      { id := sale_id, branch_id := branch_id, client_id := none,
        paid_cash := price * (n : ℚ), paid_card := 0, paid_debt := 0,
        items := [{ id := 0, product_id := pid, quantity := n, price := price,
                    total := (price - 0) * (n : ℚ) }] }
      { sale_id := sale_id, type := "by_receipt", items := [] }
      { stock := ({ st with
            stock := (adjust_stock st.stock branch_id pid (-(n : ℚ)) false).2,
            products := fun p => if p = pid then some (max (pq - n) 0) else st.products p }
          : SaleState).stock,
        products := ({ st with
            stock := (adjust_stock st.stock branch_id pid (-(n : ℚ)) false).2,
            products := fun p => if p = pid then some (max (pq - n) 0) else st.products p }
          : SaleState).products,
        return_items := [] } = .ok
      ({ stock := (adjust_stock (adjust_stock st.stock branch_id pid (-(n : ℚ)) false).2
            branch_id pid (n : ℚ) false).2,
         products := fun p => if p = pid then
             ((fun p0 => if p0 = pid then some (max (pq - n) 0) else st.products p0) p).map
               (· + n)
           else (fun p0 => if p0 = pid then some (max (pq - n) 0) else st.products p0) p,
         return_items := [] },
       [{ sale_item_id := 0, quantity := n,
          amount := (if (n : ℤ) ≠ 0 then (price - 0) * (n : ℚ) / (n : ℚ) else price) *
            (n : ℚ) }]) := by
    simp only [build_return_items]
    rw [if_pos trivial]
    simp only [List.map_cons, List.map_nil, process_return_items, returnedQty,
      List.filter_nil, List.map_nil, List.sum_nil, sub_zero]
    rw [if_neg (not_lt.mpr (le_max_left _ _))]
    rw [if_neg (by simp)]
  refine ⟨_, _, hbuild, by simp, ?_⟩
  intro hlt
  rcases le_or_lt (pq - n) 0 with hc | hc
  · rw [max_eq_right hc]
    omega
  · rw [max_eq_left hc.le]
    omega

/-- Branch 1 holds 10 units of product 7 in stock, while the product's
global counter holds only 1; no clients or debts. -/
def stC10 : SaleState :=
  { stock := fun b p => if b = 1 ∧ p = 7 then some 10 else none,
    products := fun p => if p = 7 then some 1 else none,
    clients := fun _ => none, debts := [] }

/-- Witness for C10: selling 5 units clamps the counter 1 → 0; the
by-receipt return raises it to 5 > 1. -/
theorem C10_product_counter_drift_witness :
    (stC10.products 7 = some 1 ∧ ((5 : ℤ) : ℚ) ≤ quantityAt stC10.stock 1 7) ∧
    (∃ st1 sale, create_sale stC10
        { client_id := none, paid_cash := 10 * ((5 : ℤ) : ℚ), paid_card := 0, paid_debt := 0,
          payment_type := "cash",
          items := [{ product_id := 7, quantity := 5, price := 10, discount := 0 }] }
        1 100 0 0 = .ok (st1, sale) ∧
      st1.products 7 = some (max ((1 : ℤ) - 5) 0) ∧
      (∃ st2 rows, build_return_items sale
          { sale_id := 100, type := "by_receipt", items := [] }
          { stock := st1.stock, products := st1.products, return_items := [] } =
            .ok (st2, rows) ∧
        st2.products 7 = some (max ((1 : ℤ) - 5) 0 + 5) ∧
        ((1 : ℤ) < 5 → (1 : ℤ) < max ((1 : ℤ) - 5) 0 + 5))) :=
  ⟨⟨rfl, by norm_num [quantityAt, stC10]⟩,
   C10_product_counter_drift stC10 1 7 100 0 0 1 5 10 rfl (by norm_num [quantityAt, stC10])⟩
